import Mathlib

/-!
Verification of the candidate–job fit scoring engine, the PII redaction
engine and the pipeline orchestrator of the `job-candidate-fit` repository.

Scores and similarities (Python floats in the source) are embedded as
rationals; Python strings are embedded as Lean `String` / `List Char`;
Python functions that can raise are embedded as `Option`/`Except`-valued
functions; external providers (the embedding model, the NER model, the
LLM agents, the document loader) are parameters of the embedded functions.
-/

namespace JobFit

/-! ### Text normalisation (`_norm` in the scorer modules)

`_norm(s) = re.sub(r"\s+", " ", s.lower().strip())`: lowercase, strip
leading/trailing whitespace, collapse every internal whitespace run to a
single space. -/

/-- Python `\s` character class membership (space, tab, newline, CR, VT, FF). -/
def isWs (c : Char) : Bool :=
  c = ' ' || c = '\t' || c = '\n' || c = '\r' || c.toNat = 11 || c.toNat = 12

/-- Python `str.strip()`: drop whitespace at both ends. -/
def pyStrip (l : List Char) : List Char :=
  ((l.dropWhile isWs).reverse.dropWhile isWs).reverse

/-- Source `re.sub(r"\s+", " ", ·)`: collapse each whitespace run to one space.
The boolean records whether the previous character was whitespace. -/
def collapseWsAux : Bool → List Char → List Char
  | _, [] => []
  | prevWs, c :: rest =>
    if isWs c then
      if prevWs then collapseWsAux true rest
      else ' ' :: collapseWsAux true rest
    else c :: collapseWsAux false rest

/-- Source `_norm` from `skill_evaluator.py` / `experience_evaluator.py` /
`education_evaluator.py`. -/
def pynorm (s : String) : String :=
  ⟨collapseWsAux false (pyStrip (s.data.map Char.toLower))⟩

/-! ### `np.argmax` over a similarity row

`np.argmax` returns the index of the first occurrence of the maximum. -/

/-- Maximum of a similarity row (0 for the empty row, which the code never
reads: `np.argmax` raises on an empty array and we model that case as
failure at the call sites). -/
def listMax : List ℚ → ℚ
  | [] => 0
  | x :: xs => xs.foldl max x

/-- Source `np.argmax`: index of the first occurrence of the maximum. -/
def npArgmax (l : List ℚ) : Nat :=
  l.indexOf (listMax l)

theorem foldl_max_basic (xs : List ℚ) : ∀ x : ℚ,
    (xs.foldl max x = x ∨ xs.foldl max x ∈ xs) ∧
      x ≤ xs.foldl max x ∧ ∀ y ∈ xs, y ≤ xs.foldl max x := by
  induction xs with
  | nil => intro x; simp
  | cons a xs ih =>
    intro x
    obtain ⟨hmem, hle, hall⟩ := ih (max x a)
    refine ⟨?_, ?_, ?_⟩
    · rcases hmem with h | h
      · rcases max_choice x a with hc | hc
        · exact Or.inl (by rw [List.foldl_cons]; rw [hc] at h ⊢; exact h)
        · refine Or.inr ?_
          rw [List.foldl_cons]
          rw [hc] at h
          simp [h, hc]
      · exact Or.inr (by simp [List.foldl_cons, h])
    · exact le_trans (le_max_left x a) (by simpa [List.foldl_cons] using hle)
    · intro y hy
      rw [List.foldl_cons]
      rcases List.mem_cons.1 hy with h | h
      · rw [h]
        exact le_trans (le_max_right x a) hle
      · exact hall y h

theorem listMax_mem {l : List ℚ} (h : l ≠ []) : listMax l ∈ l := by
  cases l with
  | nil => exact absurd rfl h
  | cons x xs =>
    rcases (foldl_max_basic xs x).1 with h1 | h1
    · simp [listMax, h1]
    · simp [listMax, h1]

theorem le_listMax {l : List ℚ} {y : ℚ} (hy : y ∈ l) : y ≤ listMax l := by
  cases l with
  | nil => simp at hy
  | cons x xs =>
    rcases List.mem_cons.1 hy with h | h
    · rw [h]
      exact (foldl_max_basic xs x).2.1
    · exact (foldl_max_basic xs x).2.2 y h

theorem getD_npArgmax {l : List ℚ} (h : l ≠ []) :
    l.getD (npArgmax l) 0 = listMax l := by
  have hmem : listMax l ∈ l := listMax_mem h
  have hlt : l.indexOf (listMax l) < l.length := List.indexOf_lt_length.2 hmem
  rw [npArgmax, List.getD_eq_getElem l 0 hlt]
  exact List.getElem_indexOf hlt

theorem npArgmax_lt_length {l : List ℚ} (h : l ≠ []) :
    npArgmax l < l.length :=
  List.indexOf_lt_length.2 (listMax_mem h)

/-! ### Configuration (`config.py`) -/

/-- Source `Thresholds` dataclass from `config.py`, with its default values. -/
structure Thresholds where
  semantic_match : ℚ := 80 / 100
  skill_transferable_min : ℚ := 50 / 100
  education_partial_match_min : ℚ := 50 / 100
  experience_match_score : ℚ := 80 / 100

/-- Source `THRESHOLDS = Thresholds()`. -/
def THRESHOLDS : Thresholds := {}

/-- Source `Weights` dataclass from `config.py`, with its default values. -/
structure Weights where
  required_skills : ℚ := 30 / 100
  prefered_skills : ℚ := 10 / 100
  experience : ℚ := 30 / 100
  qualification : ℚ := 15 / 100
  seniority : ℚ := 15 / 100
  experience_years : ℚ := 4 / 10
  experience_kind : ℚ := 6 / 10

/-- Source `WEIGHTS = Weights()`. -/
def WEIGHTS : Weights := {}

/-! ### Skill evaluator (`tools/skill_evaluator.py`) -/

/-- Result dictionary of `evaluate_single_skill`. -/
structure SkillResult where
  job_skill : String
  best_candidate_skill : Option String
  classification : String
  similarity : ℚ
deriving DecidableEq

/-- Source `evaluate_single_skill(job_skill, candidate_skills)`.

`sim a b` is the embedding provider's cosine similarity between the encoded
texts `a` and `b` (the code encodes the *normalised* strings and takes the
similarity row against all candidates).  An empty candidate list makes
`np.argmax` raise, embedded as `none`. -/
def evaluate_single_skill (sim : String → String → ℚ)
    (job_skill : String) (candidate_skills : List String) : Option SkillResult :=
  let job_norm := pynorm job_skill
  let cand_norm := candidate_skills.map pynorm
  if job_norm ∈ cand_norm then
    some { job_skill := job_skill, best_candidate_skill := some job_skill,
           classification := "match", similarity := 1 }
  else if cand_norm.isEmpty then
    none
  else
    let sims := cand_norm.map (sim job_norm)
    let max_sim_idx := npArgmax sims
    let max_sim_val := sims.getD max_sim_idx 0
    if THRESHOLDS.semantic_match ≤ max_sim_val then
      some { job_skill := job_skill,
             best_candidate_skill := some (candidate_skills.getD max_sim_idx ""),
             classification := "match", similarity := max_sim_val }
    else if THRESHOLDS.skill_transferable_min < max_sim_val ∧
        max_sim_val < THRESHOLDS.semantic_match then
      some { job_skill := job_skill,
             best_candidate_skill := some (candidate_skills.getD max_sim_idx ""),
             classification := "transferable", similarity := max_sim_val }
    else
      some { job_skill := job_skill,
             best_candidate_skill := some (candidate_skills.getD max_sim_idx ""),
             classification := "missing", similarity := 0 }

theorem THRESHOLDS_semantic_match_eq : THRESHOLDS.semantic_match = 80 / 100 := rfl

theorem THRESHOLDS_skill_transferable_min_eq :
    THRESHOLDS.skill_transferable_min = 50 / 100 := rfl

theorem map_ne_nil {α β : Type} {f : α → β} {l : List α} (h : l ≠ []) :
    l.map f ≠ [] := by
  cases l with
  | nil => exact absurd rfl h
  | cons a l => simp

/-- C1: `evaluate_single_skill(job_skill, candidate_skills)`: a normalised
lexical hit yields classification `match` with similarity `1` regardless of
the embedding provider `sim`; otherwise, with `s` the maximum pairwise
semantic similarity (a member of the similarity row that dominates every
entry of it, selected at the first occurrence by `np.argmax`), `s ≥ 0.80`
yields `match` with similarity `s`, `0.50 < s < 0.80` yields `transferable`
with similarity `s`, and `s ≤ 0.50` yields `missing` with reported
similarity `0`. -/
theorem evaluate_single_skill_correct
    (sim : String → String → ℚ) (job_skill : String)
    (candidate_skills : List String) (hne : candidate_skills ≠ []) :
    (pynorm job_skill ∈ candidate_skills.map pynorm →
      evaluate_single_skill sim job_skill candidate_skills =
        some { job_skill := job_skill, best_candidate_skill := some job_skill,
               classification := "match", similarity := 1 }) ∧
    (pynorm job_skill ∉ candidate_skills.map pynorm →
      ∀ sims s, sims = (candidate_skills.map pynorm).map (sim (pynorm job_skill)) →
        s = listMax sims →
        (s ∈ sims ∧ ∀ x ∈ sims, x ≤ s) ∧
        (80 / 100 ≤ s →
          evaluate_single_skill sim job_skill candidate_skills =
            some { job_skill := job_skill,
                   best_candidate_skill := some (candidate_skills.getD (npArgmax sims) ""),
                   classification := "match", similarity := s }) ∧
        (50 / 100 < s ∧ s < 80 / 100 →
          evaluate_single_skill sim job_skill candidate_skills =
            some { job_skill := job_skill,
                   best_candidate_skill := some (candidate_skills.getD (npArgmax sims) ""),
                   classification := "transferable", similarity := s }) ∧
        (s ≤ 50 / 100 →
          evaluate_single_skill sim job_skill candidate_skills =
            some { job_skill := job_skill,
                   best_candidate_skill := some (candidate_skills.getD (npArgmax sims) ""),
                   classification := "missing", similarity := 0 })) := by
  constructor
  · intro hmem
    simp only [evaluate_single_skill]
    rw [if_pos hmem]
  · intro hnmem sims s hsims hs
    have hmapne : candidate_skills.map pynorm ≠ [] := map_ne_nil hne
    have hsimsne : sims ≠ [] := hsims ▸ map_ne_nil hmapne
    have hgd : sims.getD (npArgmax sims) 0 = s := by rw [getD_npArgmax hsimsne, hs]
    have hempty : ¬((candidate_skills.map pynorm).isEmpty = true) := by
      simpa [List.isEmpty_iff] using hmapne
    refine ⟨⟨hs ▸ listMax_mem hsimsne, fun x hx => hs ▸ le_listMax hx⟩, ?_, ?_, ?_⟩
    · intro h80
      simp only [evaluate_single_skill]
      rw [if_neg hnmem, if_neg hempty, ← hsims, hgd,
        if_pos (show THRESHOLDS.semantic_match ≤ s by
          rw [THRESHOLDS_semantic_match_eq]; exact h80)]
    · intro hmid
      simp only [evaluate_single_skill]
      rw [if_neg hnmem, if_neg hempty, ← hsims, hgd,
        if_neg (show ¬THRESHOLDS.semantic_match ≤ s by
          rw [THRESHOLDS_semantic_match_eq]; exact not_le.2 hmid.2),
        if_pos (show THRESHOLDS.skill_transferable_min < s ∧ s < THRESHOLDS.semantic_match by
          rw [THRESHOLDS_skill_transferable_min_eq, THRESHOLDS_semantic_match_eq]
          exact hmid)]
    · intro hlo
      have h1 : s < 80 / 100 := lt_of_le_of_lt hlo (by norm_num)
      simp only [evaluate_single_skill]
      rw [if_neg hnmem, if_neg hempty, ← hsims, hgd,
        if_neg (show ¬THRESHOLDS.semantic_match ≤ s by
          rw [THRESHOLDS_semantic_match_eq]; exact not_le.2 h1),
        if_neg (show ¬(THRESHOLDS.skill_transferable_min < s ∧ s < THRESHOLDS.semantic_match) by
          rw [THRESHOLDS_skill_transferable_min_eq]
          rintro ⟨hgt, -⟩
          exact absurd hlo (not_le.2 hgt))]

/-- Witness for C1 at a concrete input: job skill `"Python"`, candidate
skills `["Java"]`, a constant similarity provider returning `0.9`. -/
theorem evaluate_single_skill_correct_witness :
    (["Java"] : List String) ≠ [] ∧
    pynorm "Python" ∉ (["Java"] : List String).map pynorm ∧
    evaluate_single_skill (fun _ _ => (9 : ℚ) / 10) "Python" ["Java"] =
      some { job_skill := "Python", best_candidate_skill := some "Java",
             classification := "match", similarity := 9 / 10 } := by
  have hne : (["Java"] : List String) ≠ [] := by decide
  have hnm : pynorm "Python" ∉ (["Java"] : List String).map pynorm := by decide
  refine ⟨hne, hnm, ?_⟩
  have h := (evaluate_single_skill_correct (fun _ _ => (9 : ℚ) / 10) "Python"
      ["Java"] hne).2 hnm [(9 : ℚ) / 10] ((9 : ℚ) / 10) (by simp)
      (by norm_num [listMax])
  have h80 := h.2.1 (by norm_num)
  simpa [npArgmax, listMax, List.indexOf, List.findIdx, List.findIdx.go] using h80

/-! ### Python `round(x, 2)`

Python rounds half to even.  (Binary floating-point representation error is
out of scope; the embedding rounds the ideal rational.) -/

/-- Round a rational to the nearest integer, ties to even (Python `round`). -/
def pyRound (q : ℚ) : ℤ :=
  if q - ⌊q⌋ < 1 / 2 then ⌊q⌋
  else if 1 / 2 < q - ⌊q⌋ then ⌊q⌋ + 1
  else if Even ⌊q⌋ then ⌊q⌋ else ⌊q⌋ + 1

/-- Python `round(q, 2)`. -/
def round2 (q : ℚ) : ℚ := (pyRound (q * 100) : ℚ) / 100

theorem pyRound_intCast (n : ℤ) : pyRound (n : ℚ) = n := by
  have h0 : ((n : ℚ) - ⌊(n : ℚ)⌋) = 0 := by simp
  simp [pyRound, h0]

theorem round2_eq_self_of_den_dvd {q : ℚ} (n : ℤ) (h : q * 100 = (n : ℚ)) :
    round2 q = q := by
  have : round2 q = ((n : ℚ)) / 100 := by rw [round2, h, pyRound_intCast]
  rw [this, ← h]
  field_simp

/-! ### Experience evaluator (`tools/experience_evaluator.py`)

The human-readable `note` strings of the returned dictionaries are not
modelled; the claims concern the numeric fields and the selected texts. -/

/-- Result dictionary of `score_experience_years` (without the `note`). -/
structure YearsResult where
  candidate_years : Option ℚ
  required_years : Option ℚ
  score : ℚ
deriving DecidableEq

/-- Source `score_experience_years(candidate_years, required_years)`. -/
def score_experience_years (candidate_years required_years : Option ℚ) :
    YearsResult :=
  match required_years with
  | none => { candidate_years := candidate_years, required_years := none, score := 70 }
  | some r =>
    match candidate_years with
    | none => { candidate_years := none, required_years := some r, score := 50 }
    | some c =>
      if r ≤ 0 then
        { candidate_years := some c, required_years := some r, score := 70 }
      else
        { candidate_years := some c, required_years := some r, score := c / r * 100 }

/-- Result dictionary of `score_experience_kind`.  (The source spells the
first key `"ad_kind"` in the early-return branches and `"ad_required_kind"`
in the semantic branch; both are modelled by the single field
`ad_kind`.) -/
structure KindResult where
  ad_kind : Option String
  candidate_matching_text : Option String
  score : ℚ
  similarity : ℚ
deriving DecidableEq

/-- Python truthiness test `not required_kind or not required_kind.strip()`:
`None`, the empty string, and whitespace-only strings are "falsy or blank". -/
def kindBlank : Option String → Bool
  | none => true
  | some rk => rk = "" || pyStrip rk.data = []

/-- Source `score_experience_kind(required_kind, candidate_experience_texts)`.

The whole Python body is wrapped in `try: ... except Exception: print(...)`,
which makes the function return `None` on *any* internal error; the embedding
returns `none` in exactly those cases.  The embedding provider may itself
fail, so `sim` is `Option`-valued; `candidate_experience_texts[0]` on an
empty list raises `IndexError`, which the blanket handler also swallows. -/
def score_experience_kind (sim : String → String → Option ℚ)
    (required_kind : Option String)
    (candidate_experience_texts : List String) : Option KindResult :=
  if kindBlank required_kind then
    match candidate_experience_texts with
    | [] => none
    | t :: _ =>
      some { ad_kind := none, candidate_matching_text := some t,
             score := 70, similarity := 0 }
  else
    match required_kind with
    | none => none
    | some rk =>
      if candidate_experience_texts = [] then
        some { ad_kind := some rk, candidate_matching_text := none,
               score := 30, similarity := 0 }
      else if rk ∈ candidate_experience_texts then
        some { ad_kind := some rk, candidate_matching_text := some rk,
               score := 100, similarity := 1 }
      else
        let req := pynorm rk
        let cands_norm := candidate_experience_texts.map pynorm
        match cands_norm.mapM (sim req) with
        | none => none
        | some sims =>
          let max_sim_idx := npArgmax sims
          let max_sim_val := sims.getD max_sim_idx 0
          let score :=
            if THRESHOLDS.experience_match_score ≤ max_sim_val then (100 : ℚ)
            else max_sim_val * 100
          some { ad_kind := some rk,
                 candidate_matching_text :=
                   some (candidate_experience_texts.getD max_sim_idx ""),
                 score := score, similarity := max_sim_val }

/-- Source `combine_experience_scores(years_score, kind_score)` (the
`combined_score` entry). -/
def combine_experience_scores (years_score kind_score : ℚ) : ℚ :=
  round2 (years_score * WEIGHTS.experience_years + kind_score * WEIGHTS.experience_kind)

/-! ### Overall fit aggregation (`tools/overall_scoring.py`) -/

/-- Source `compute_overall_fit_score(...)["overall_fit_score"]`. -/
def compute_overall_fit_score (required_skill_score prefered_skill_score
    experience_score qualification_score seniority_score : ℚ) : ℚ :=
  round2 (required_skill_score * WEIGHTS.required_skills
    + prefered_skill_score * WEIGHTS.prefered_skills
    + experience_score * WEIGHTS.experience
    + qualification_score * WEIGHTS.qualification
    + seniority_score * WEIGHTS.seniority)

/-- C4: `score_experience_years` returns 70 when the requirement is
unspecified, 50 when the candidate years are unspecified, 70 when the
required years are non-positive, and otherwise exactly
`100 × candidate_years / required_years` with no upper cap; in particular
10 years against a 5-year requirement scores 200 and 2.5 years against a
5-year requirement scores 50. -/
theorem score_experience_years_correct :
    (∀ c, (score_experience_years c none).score = 70) ∧
    (∀ r, (score_experience_years none (some r)).score = 50) ∧
    (∀ c r : ℚ, r ≤ 0 → (score_experience_years (some c) (some r)).score = 70) ∧
    (∀ c r : ℚ, 0 < r →
      (score_experience_years (some c) (some r)).score = 100 * c / r) ∧
    (score_experience_years (some 10) (some 5)).score = 200 ∧
    (score_experience_years (some (5 / 2)) (some 5)).score = 50 := by
  refine ⟨fun c => rfl, fun r => rfl, ?_, ?_, ?_, ?_⟩
  · intro c r hr
    simp [score_experience_years, if_pos hr]
  · intro c r hr
    rw [score_experience_years, if_neg (not_le.2 hr)]
    ring
  · norm_num [score_experience_years]
  · norm_num [score_experience_years]

/-- Witness for C4 at concrete inputs: a non-positive requirement and a
positive requirement. -/
theorem score_experience_years_correct_witness :
    ((0 : ℚ) ≤ 0 ∧ (score_experience_years (some 3) (some 0)).score = 70) ∧
    ((0 : ℚ) < 5 ∧ (score_experience_years (some 10) (some 5)).score = 100 * 10 / 5) := by
  have h := score_experience_years_correct
  exact ⟨⟨le_refl 0, h.2.2.1 3 0 (le_refl 0)⟩,
    ⟨by norm_num, h.2.2.2.1 10 5 (by norm_num)⟩⟩

/-- C7: the overall fit score is exactly the weighted sum
`0.30·required + 0.10·preferred + 0.30·experience + 0.15·qualification
+ 0.15·seniority` rounded to two decimals, the default weights sum to `1`,
there is no clamping (components above 100 propagate above 100), and five
components of 80 give exactly 80. -/
theorem compute_overall_fit_score_correct :
    (WEIGHTS.required_skills + WEIGHTS.prefered_skills + WEIGHTS.experience
      + WEIGHTS.qualification + WEIGHTS.seniority = 1) ∧
    (∀ a b c d e : ℚ, compute_overall_fit_score a b c d e =
      round2 (a * (30 / 100) + b * (10 / 100) + c * (30 / 100)
        + d * (15 / 100) + e * (15 / 100))) ∧
    compute_overall_fit_score 80 80 80 80 80 = 80 ∧
    (compute_overall_fit_score 150 100 200 100 100 = 145 ∧
      (100 : ℚ) < compute_overall_fit_score 150 100 200 100 100) := by
  have hw1 : WEIGHTS.required_skills = 30 / 100 := rfl
  have hw2 : WEIGHTS.prefered_skills = 10 / 100 := rfl
  have hw3 : WEIGHTS.experience = 30 / 100 := rfl
  have hw4 : WEIGHTS.qualification = 15 / 100 := rfl
  have hw5 : WEIGHTS.seniority = 15 / 100 := rfl
  have h80 : compute_overall_fit_score 80 80 80 80 80 = 80 := by
    have hsum : (80 : ℚ) * WEIGHTS.required_skills + 80 * WEIGHTS.prefered_skills
        + 80 * WEIGHTS.experience + 80 * WEIGHTS.qualification
        + 80 * WEIGHTS.seniority = 80 := by
      rw [hw1, hw2, hw3, hw4, hw5]; norm_num
    rw [compute_overall_fit_score, hsum]
    exact round2_eq_self_of_den_dvd 8000 (by norm_num)
  have h145 : compute_overall_fit_score 150 100 200 100 100 = 145 := by
    have hsum : (150 : ℚ) * WEIGHTS.required_skills + 100 * WEIGHTS.prefered_skills
        + 200 * WEIGHTS.experience + 100 * WEIGHTS.qualification
        + 100 * WEIGHTS.seniority = 145 := by
      rw [hw1, hw2, hw3, hw4, hw5]; norm_num
    rw [compute_overall_fit_score, hsum]
    exact round2_eq_self_of_den_dvd 14500 (by norm_num)
  refine ⟨?_, fun a b c d e => rfl, h80, h145, ?_⟩
  · rw [hw1, hw2, hw3, hw4, hw5]; norm_num
  · rw [h145]; norm_num

/-! ### Education / qualification evaluator (`tools/education_evaluator.py`)

The `education_or_qualification` indicator argument only renames a
dictionary key and the human-readable `note` strings; neither is modelled. -/

/-- Result dictionary of `score_education_and_qualification`. -/
structure EduResult where
  required : Option String
  best_candidate_match : Option String
  score : ℚ
deriving DecidableEq

/-- Source `score_education_and_qualification(ad_required_qualification,
candidate_qualification, ...)`.

`if not ad_required_qualification:` treats `None` and `""` as missing; in
that branch `candidate_qualification[0]` raises `IndexError` when the
candidate list is empty (embedded as `none`). -/
def score_education_and_qualification (sim : String → String → ℚ)
    (ad_required_qualification : Option String)
    (candidate_qualification : List String) : Option EduResult :=
  if ad_required_qualification = none ∨ ad_required_qualification = some "" then
    match candidate_qualification with
    | [] => none
    | c :: _ => some { required := none, best_candidate_match := some c, score := 70 }
  else
    match ad_required_qualification with
    | none => none
    | some ad =>
      if candidate_qualification = [] then
        some { required := some ad, best_candidate_match := none, score := 50 }
      else
        let ad_norm := pynorm ad
        let cand_norm := candidate_qualification.map pynorm
        if ad_norm ∈ cand_norm then
          some { required := some ad, best_candidate_match := some ad, score := 100 }
        else
          let sims := cand_norm.map (sim ad_norm)
          let max_sim_idx := npArgmax sims
          let max_sim_val := sims.getD max_sim_idx 0
          if THRESHOLDS.semantic_match ≤ max_sim_val then
            some { required := some ad,
                   best_candidate_match := some (candidate_qualification.getD max_sim_idx ""),
                   score := 100 }
          else if THRESHOLDS.education_partial_match_min < max_sim_val ∧
              max_sim_val < THRESHOLDS.semantic_match then
            some { required := some ad,
                   best_candidate_match := some (candidate_qualification.getD max_sim_idx ""),
                   score := 70 }
          else
            some { required := some ad,
                   best_candidate_match := some (candidate_qualification.getD max_sim_idx ""),
                   score := 0 }

theorem THRESHOLDS_education_partial_match_min_eq :
    THRESHOLDS.education_partial_match_min = 50 / 100 := rfl

/-- C8: scoring one required education/qualification item: no requirement
yields 70 anchored on the candidate's first item; a present requirement with
an empty candidate list yields 50; exact normalised containment yields 100;
otherwise, with `m` the maximum semantic similarity, `m ≥ 0.80` yields 100,
`0.50 < m < 0.80` yields 70, and `m ≤ 0.50` yields 0. -/
theorem score_education_and_qualification_correct
    (sim : String → String → ℚ) :
    (∀ c rest, ∀ ad, (ad = none ∨ ad = some "") →
      score_education_and_qualification sim ad (c :: rest) =
        some { required := none, best_candidate_match := some c, score := 70 }) ∧
    (∀ ad : String, ad ≠ "" →
      score_education_and_qualification sim (some ad) [] =
        some { required := some ad, best_candidate_match := none, score := 50 }) ∧
    (∀ ad : String, ∀ cands : List String, ad ≠ "" → cands ≠ [] →
      pynorm ad ∈ cands.map pynorm →
      score_education_and_qualification sim (some ad) cands =
        some { required := some ad, best_candidate_match := some ad, score := 100 }) ∧
    (∀ ad : String, ∀ cands : List String, ad ≠ "" → cands ≠ [] →
      pynorm ad ∉ cands.map pynorm →
      ∀ m, m = listMax ((cands.map pynorm).map (sim (pynorm ad))) →
        ∃ r, score_education_and_qualification sim (some ad) cands = some r ∧
          r.required = some ad ∧
          r.score = (if 80 / 100 ≤ m then 100
            else if 50 / 100 < m then 70 else 0)) := by
  have hthr1 := THRESHOLDS_semantic_match_eq
  have hthr2 := THRESHOLDS_education_partial_match_min_eq
  refine ⟨?_, ?_, ?_, ?_⟩
  · intro c rest ad had
    simp only [score_education_and_qualification]
    rw [if_pos had]
  · intro ad had
    simp only [score_education_and_qualification]
    rw [if_neg (by simp [had])]
    simp
  · intro ad cands had hcne hmem
    simp only [score_education_and_qualification]
    rw [if_neg (by simp [had]), if_neg hcne, if_pos hmem]
  · intro ad cands had hcne hnmem m hm
    have hsimsne : (cands.map pynorm).map (sim (pynorm ad)) ≠ [] :=
      map_ne_nil (map_ne_nil hcne)
    have hgd : ((cands.map pynorm).map (sim (pynorm ad))).getD
        (npArgmax ((cands.map pynorm).map (sim (pynorm ad)))) 0 = m := by
      rw [getD_npArgmax hsimsne, hm]
    simp only [score_education_and_qualification]
    rw [if_neg (by simp [had]), if_neg hcne, if_neg hnmem, hgd]
    by_cases h80 : THRESHOLDS.semantic_match ≤ m
    · rw [if_pos h80]
      refine ⟨_, rfl, rfl, ?_⟩
      rw [if_pos (by rw [← hthr1]; exact h80)]
    · rw [if_neg h80]
      by_cases h50 : THRESHOLDS.education_partial_match_min < m
      · rw [if_pos ⟨h50, lt_of_not_le h80⟩]
        refine ⟨_, rfl, rfl, ?_⟩
        rw [if_neg (by rw [← hthr1]; exact h80), if_pos (by rw [← hthr2]; exact h50)]
      · rw [if_neg (fun hc => h50 hc.1)]
        refine ⟨_, rfl, rfl, ?_⟩
        rw [if_neg (by rw [← hthr1]; exact h80),
          if_neg (by rw [← hthr2]; exact h50)]

/-- Witness for C8 at concrete inputs: a missing requirement anchored on the
first candidate item, and a present requirement with an empty candidate
list. -/
theorem score_education_and_qualification_correct_witness :
    ((none : Option String) = none ∨ (none : Option String) = some "") ∧
    score_education_and_qualification (fun _ _ => 0) none ["BSc"] =
      some { required := none, best_candidate_match := some "BSc", score := 70 } ∧
    ("PhD" : String) ≠ "" ∧
    score_education_and_qualification (fun _ _ => 0) (some "PhD") [] =
      some { required := some "PhD", best_candidate_match := none, score := 50 } := by
  have h := score_education_and_qualification_correct (fun _ _ => 0)
  exact ⟨Or.inl rfl, h.1 "BSc" [] none (Or.inl rfl), by decide,
    h.2.1 "PhD" (by decide)⟩

/-- C10: `score_experience_kind` never propagates an exception: its body is
wrapped in a blanket `except Exception` handler that prints and falls
through, so any error-triggering input yields `None` instead of the
documented score dictionary.  In particular an empty/whitespace
`required_kind` together with an empty candidate list (which indexes element
0 of the empty list) yields `None`, and so does any embedding-provider
failure in the semantic branch. -/
theorem score_experience_kind_total :
    (∀ sim rk, kindBlank rk = true →
      score_experience_kind sim rk [] = none) ∧
    (∀ sim : String → String → Option ℚ, ∀ rk : String, ∀ texts : List String,
      kindBlank (some rk) = false → texts ≠ [] → rk ∉ texts →
      (texts.map pynorm).mapM (sim (pynorm rk)) = none →
      score_experience_kind sim (some rk) texts = none) := by
  constructor
  · intro sim rk hblank
    simp only [score_experience_kind]
    rw [if_pos hblank]
  · intro sim rk texts hblank hne hnm hfail
    simp only [score_experience_kind]
    rw [if_neg (by simp [hblank]), if_neg hne, if_neg hnm, hfail]

/-- Witness for C10: whitespace-only requirement with empty candidate list,
and a failing embedding provider in the semantic branch. -/
theorem score_experience_kind_total_witness :
    (kindBlank (some "  ") = true ∧
      score_experience_kind (fun _ _ => some 1) (some "  ") [] = none) ∧
    (kindBlank (some "ml") = false ∧ (["ops"] : List String) ≠ [] ∧
      ("ml" : String) ∉ (["ops"] : List String) ∧
      ((["ops"] : List String).map pynorm).mapM
        ((fun _ _ => none : String → String → Option ℚ) (pynorm "ml")) = none ∧
      score_experience_kind (fun _ _ => none) (some "ml") ["ops"] = none) := by
  have h := score_experience_kind_total
  refine ⟨⟨by decide, h.1 _ (some "  ") (by decide)⟩,
    ⟨by decide, by decide, by decide, by decide, ?_⟩⟩
  exact h.2 (fun _ _ => none) "ml" ["ops"] (by decide) (by decide) (by decide)
    (by decide)

/-! ### PII entities and redaction (`pii_redactor.py`, `models.py`)

Resume text is embedded as `List Char` so that character-offset splicing is
faithful to Python string slicing. -/

/-- Source `PIIEntity` pydantic model (`models.py`). -/
structure PIIEntity where
  entity_type : String
  text : List Char
  start_char : Nat
  end_char : Nat
  confidence : ℚ
  replacement : List Char
deriving DecidableEq

/-- One splicing step of `process_resume`:
`redacted[:start] + replacement + redacted[end:]`. -/
def splice (t : List Char) (e : PIIEntity) : List Char :=
  t.take e.start_char ++ e.replacement ++ t.drop e.end_char

/-- Source `sorted(pii_entities, key=lambda e: e.start_char, reverse=True)`. -/
def sortDescStart (l : List PIIEntity) : List PIIEntity :=
  List.insertionSort (fun a b => b.start_char ≤ a.start_char) l

/-- The redaction loop of `process_resume`: splice every entity's
replacement into the text, in descending `start_char` order. -/
def apply_replacements (t : List Char) (es : List PIIEntity) : List Char :=
  (sortDescStart es).foldl splice t

/-- Simultaneous substitution: traverse the text once with an absolute
cursor, copying the text outside the entity spans and emitting each
entity's replacement in place of its `[start_char, end_char)` span.  The
entity list is expected in ascending span order. -/
def simSubFrom (t : List Char) : Nat → List PIIEntity → List Char
  | i, [] => t.drop i
  | i, e :: es =>
    (t.drop i).take (e.start_char - i) ++ e.replacement ++ simSubFrom t e.end_char es

/-- Two spans do not overlap. -/
def SpansDisjoint (a b : PIIEntity) : Prop :=
  a.end_char ≤ b.start_char ∨ b.end_char ≤ a.start_char

theorem foldr_splice_eq (asc : List PIIEntity) :
    ∀ (t : List Char) (i : Nat), i ≤ t.length →
    (∀ e ∈ asc, i ≤ e.start_char ∧ e.start_char ≤ e.end_char ∧
      e.end_char ≤ t.length) →
    asc.Pairwise (fun a b => a.end_char ≤ b.start_char) →
    asc.foldr (fun e acc => splice acc e) t = t.take i ++ simSubFrom t i asc := by
  induction asc with
  | nil =>
    intro t i _ _ _
    simp [simSubFrom]
  | cons e es ih =>
    intro t i hi hb hp
    obtain ⟨hhead, htail⟩ := List.pairwise_cons.1 hp
    have hbe := hb e (List.mem_cons_self e es)
    have hIH := ih t e.end_char hbe.2.2
      (fun f hf => ⟨hhead f hf, (hb f (List.mem_cons_of_mem e hf)).2⟩) htail
    rw [List.foldr_cons, hIH, splice]
    have hlen : (t.take e.end_char).length = e.end_char := by
      rw [List.length_take]
      exact min_eq_left hbe.2.2
    rw [List.take_append_of_le_length (by rw [hlen]; exact hbe.2.1),
      List.drop_append_of_le_length (le_of_eq hlen.symm),
      List.drop_eq_nil_of_le (le_of_eq hlen), List.nil_append,
      List.take_take, min_eq_left hbe.2.1, simSubFrom,
      ← List.append_assoc, ← List.append_assoc, ← List.take_add,
      Nat.add_sub_cancel' hbe.1]

instance : IsTotal PIIEntity (fun a b => b.start_char ≤ a.start_char) :=
  ⟨fun a b => le_total b.start_char a.start_char⟩

instance : IsTrans PIIEntity (fun a b => b.start_char ≤ a.start_char) :=
  ⟨fun _ _ _ hab hbc => le_trans hbc hab⟩

instance : IsAntisymm PIIEntity (fun a b => b.start_char < a.start_char) :=
  ⟨fun _ _ h1 h2 => (lt_asymm h1 h2).elim⟩

instance : IsAntisymm PIIEntity (fun a b => a.start_char < b.start_char) :=
  ⟨fun _ _ h1 h2 => (lt_asymm h1 h2).elim⟩

theorem symm_start_ne :
    Symmetric (fun a b : PIIEntity => a.start_char ≠ b.start_char) :=
  fun _ _ h he => h he.symm

theorem pairwise_start_ne {es : List PIIEntity}
    (hno : es.Pairwise SpansDisjoint)
    (hwf : ∀ e ∈ es, e.start_char < e.end_char) :
    es.Pairwise (fun a b => a.start_char ≠ b.start_char) := by
  refine hno.imp_of_mem ?_
  intro a b ha hb hd
  have h1 := hwf a ha
  have h2 := hwf b hb
  rcases hd with h | h <;> omega

theorem sortDescStart_strict {es : List PIIEntity}
    (hne : es.Pairwise (fun a b => a.start_char ≠ b.start_char)) :
    (sortDescStart es).Pairwise (fun a b => b.start_char < a.start_char) := by
  have hs : (sortDescStart es).Pairwise (fun a b => b.start_char ≤ a.start_char) :=
    List.sorted_insertionSort _ es
  have hperm : List.Perm (sortDescStart es) es :=
    List.perm_insertionSort _ es
  have hne' : (sortDescStart es).Pairwise (fun a b => a.start_char ≠ b.start_char) :=
    (List.Perm.pairwise_iff (fun hxy => symm_start_ne hxy) hperm).2 hne
  exact (hs.and hne').imp fun h => lt_of_le_of_ne h.1 (Ne.symm h.2)

theorem sortDescStart_perm_eq {es es' : List PIIEntity} (hp : List.Perm es' es)
    (hne : es.Pairwise (fun a b => a.start_char ≠ b.start_char)) :
    sortDescStart es' = sortDescStart es := by
  have hne' : es'.Pairwise (fun a b => a.start_char ≠ b.start_char) :=
    (List.Perm.pairwise_iff (fun hxy => symm_start_ne hxy) hp).2 hne
  exact List.eq_of_perm_of_sorted
    (((List.perm_insertionSort _ es').trans hp).trans
      (List.perm_insertionSort _ es).symm)
    (sortDescStart_strict hne') (sortDescStart_strict hne)

/-- C5: the redacted text computed by `process_resume` is invariant under
permutation of the entity list, and — because entities are spliced in
descending `start_char` order — equals the simultaneous substitution of
every entity's replacement string for its `[start_char, end_char)` span of
the original text (expressed along any ascending arrangement `asc` of the
entities). -/
theorem apply_replacements_correct (t : List Char) (es : List PIIEntity)
    (hno : es.Pairwise SpansDisjoint)
    (hwf : ∀ e ∈ es, e.start_char < e.end_char ∧ e.end_char ≤ t.length) :
    (∀ es', List.Perm es' es → apply_replacements t es' = apply_replacements t es) ∧
    (∀ asc, List.Perm asc es →
      asc.Pairwise (fun a b => a.end_char ≤ b.start_char) →
      apply_replacements t es = simSubFrom t 0 asc) := by
  have hne : es.Pairwise (fun a b => a.start_char ≠ b.start_char) :=
    pairwise_start_ne hno fun e he => (hwf e he).1
  constructor
  · intro es' hp
    rw [apply_replacements, apply_replacements, sortDescStart_perm_eq hp hne]
  · intro asc hperm hchain
    have hmem : ∀ e ∈ asc, e ∈ es := fun e he => hperm.mem_iff.1 he
    have hrevsorted : (asc.reverse).Pairwise
        (fun a b => b.start_char < a.start_char) := by
      rw [List.pairwise_reverse]
      refine hchain.imp_of_mem ?_
      intro a b ha _ h
      exact lt_of_lt_of_le (hwf a (hmem a ha)).1 h
    have heq : sortDescStart es = asc.reverse := by
      exact List.eq_of_perm_of_sorted
        ((List.perm_insertionSort _ es).trans
          (hperm.symm.trans (List.reverse_perm asc).symm))
        (sortDescStart_strict hne) hrevsorted
    rw [apply_replacements, heq, List.foldl_reverse,
      foldr_splice_eq asc t 0 (Nat.zero_le _)
        (fun e he => ⟨Nat.zero_le _, le_of_lt (hwf e (hmem e he)).1,
          (hwf e (hmem e he)).2⟩) hchain,
      List.take_zero, List.nil_append]

instance : DecidableRel SpansDisjoint := fun a b =>
  inferInstanceAs (Decidable (_ ∨ _))

/-- Concrete entity covering span `[0, 2)` of the witness text. -/
def wEnt1 : PIIEntity :=
  { entity_type := "X", text := ['a', 'b'], start_char := 0, end_char := 2,
    confidence := 1, replacement := ['[', 'X', ']'] }

/-- Concrete entity covering span `[3, 5)` of the witness text. -/
def wEnt2 : PIIEntity :=
  { entity_type := "Y", text := ['c', 'd'], start_char := 3, end_char := 5,
    confidence := 1, replacement := ['[', 'Y', ']'] }

/-- Witness for C5 on the concrete text `"ab@cd"` with two non-overlapping
entities: both discovery orders redact identically, and the result is the
simultaneous substitution, concretely `"[X]@[Y]"`. -/
theorem apply_replacements_correct_witness :
    ([wEnt1, wEnt2].Pairwise SpansDisjoint) ∧
    (∀ e ∈ [wEnt1, wEnt2],
      e.start_char < e.end_char ∧ e.end_char ≤ ("ab@cd".data).length) ∧
    apply_replacements "ab@cd".data [wEnt2, wEnt1] =
      apply_replacements "ab@cd".data [wEnt1, wEnt2] ∧
    apply_replacements "ab@cd".data [wEnt1, wEnt2] =
      simSubFrom "ab@cd".data 0 [wEnt1, wEnt2] ∧
    simSubFrom "ab@cd".data 0 [wEnt1, wEnt2] = "[X]@[Y]".data := by
  have hno : ([wEnt1, wEnt2] : List PIIEntity).Pairwise SpansDisjoint := by
    decide
  have hwf : ∀ e ∈ ([wEnt1, wEnt2] : List PIIEntity),
      e.start_char < e.end_char ∧ e.end_char ≤ ("ab@cd".data).length := by
    decide
  have h := apply_replacements_correct "ab@cd".data [wEnt1, wEnt2] hno hwf
  refine ⟨hno, hwf, h.1 [wEnt2, wEnt1] (List.Perm.swap wEnt1 wEnt2 []),
    h.2 [wEnt1, wEnt2] (List.Perm.refl _) (by decide), by decide⟩

/-! ### Statistical NER detection and span merging (`PIIDetector.detect_pii`) -/

/-- One aggregated NER token as produced by the HF pipeline: keys
`entity_group`, `word`, `start`, `end` (here `stop`), `score`. -/
structure NerToken where
  entity_group : String
  word : List Char
  start : Nat
  stop : Nat
  score : ℚ
deriving DecidableEq

/-- Python `str.upper()` (ASCII). -/
def pyUpper (s : String) : String :=
  ⟨s.data.map Char.toUpper⟩

/-- Source `PIIDetector._normalise_label`. -/
def normalise_label (label : String) : String :=
  let u := pyUpper label
  if u = "PERSON" ∨ u = "FIRSTNAME" ∨ u = "LASTNAME" ∨ u = "NAME" then "NAME"
  else if u = "EMAIL" then "EMAIL"
  else if u = "PHONE_NUM" then "PHONE"
  else if u = "URL" then "URL"
  else if u = "ADDRESS" ∨ u = "LOCATION" ∨ u = "LOC" ∨ u = "GPE" then "LOCATION"
  else u

/-- The `current_entity` merge buffer of `detect_pii` (`PIIEntity(**buffer)`
drops the extra `entity_group` key on flush: pydantic ignores extras). -/
structure CurrentEntity where
  entity_type : String
  entity_group : String
  text : List Char
  start_char : Nat
  end_char : Nat
  confidence : ℚ
  replacement : List Char
deriving DecidableEq

/-- Source `PIIEntity(**current_entity)`. -/
def bufferToEntity (c : CurrentEntity) : PIIEntity :=
  { entity_type := c.entity_type, text := c.text, start_char := c.start_char,
    end_char := c.end_char, confidence := c.confidence,
    replacement := c.replacement }

/-- Source `any(not (end <= s or start >= e) for s, e in occupied_spans)`. -/
def overlapsAny (spans : List (Nat × Nat)) (start stop : Nat) : Bool :=
  spans.any fun se => !(stop ≤ se.1 || start ≥ se.2)

/-- Loop state of `detect_pii`. -/
structure DetectState where
  pii_entities : List PIIEntity
  occupied_spans : List (Nat × Nat)
  current_entity : Option CurrentEntity
deriving DecidableEq

/-- Starting a fresh buffer from a token (the `current_entity = {...}`
assignment). -/
def newBuffer (normalised : String) (tok : NerToken) : CurrentEntity :=
  { entity_type := normalised, entity_group := tok.entity_group,
    text := tok.word, start_char := tok.start, end_char := tok.stop,
    confidence := tok.score,
    replacement := '[' :: normalised.data ++ [']'] }

/-- Merging a token into the live buffer (the `else` branch of the loop):
text is appended with no separator when the sub-label repeats and with a
single space otherwise; the end offset becomes the token's; confidence is
the max. -/
def mergeBuffer (cur : CurrentEntity) (tok : NerToken) : CurrentEntity :=
  { cur with
    text := cur.text ++
      (if tok.entity_group = cur.entity_group then tok.word
       else ' ' :: tok.word),
    entity_group := tok.entity_group,
    end_char := tok.stop,
    confidence := max cur.confidence tok.score }

/-- One iteration of the `for ent in entities` loop of `detect_pii`. -/
def detectStep (st : DetectState) (tok : NerToken) : DetectState :=
  let normalised := normalise_label tok.entity_group
  if ¬(normalised = "NAME" ∨ normalised = "LOCATION") then st
  else if overlapsAny st.occupied_spans tok.start tok.stop then st
  else
    match st.current_entity with
    | none => { st with current_entity := some (newBuffer normalised tok) }
    | some cur =>
      if cur.entity_type ≠ normalised ∨ cur.end_char + 1 < tok.start then
        { pii_entities := st.pii_entities ++ [bufferToEntity cur],
          occupied_spans := st.occupied_spans ++ [(cur.start_char, cur.end_char)],
          current_entity := some (newBuffer normalised tok) }
      else
        { st with current_entity := some (mergeBuffer cur tok) }

/-- Source `detect_pii(text)`: regex entities first, their spans occupied, then the
NER merge loop, then a final flush of the pending buffer. -/
def detect_pii (regex_entities : List PIIEntity) (ner : List NerToken) :
    List PIIEntity :=
  let st0 : DetectState :=
    { pii_entities := regex_entities,
      occupied_spans := regex_entities.map fun e => (e.start_char, e.end_char),
      current_entity := none }
  let st := ner.foldl detectStep st0
  match st.current_entity with
  | none => st.pii_entities
  | some c => st.pii_entities ++ [bufferToEntity c]

/-- A run of tokens that the merge loop keeps absorbing into one buffer of
type `ty`: each token normalises to `ty`, overlaps no occupied span, and
starts at most one character after the running end offset. -/
def MergeableRun (ty : String) (occupied : List (Nat × Nat)) :
    Nat → List NerToken → Prop
  | _, [] => True
  | e, tok :: toks =>
    normalise_label tok.entity_group = ty ∧
    overlapsAny occupied tok.start tok.stop = false ∧
    tok.start ≤ e + 1 ∧
    MergeableRun ty occupied tok.stop toks

/-- C6: in `detect_pii`, a relevant statistical span overlapping an occupied
span is discarded; with a live buffer of the same normalised type, a token
starting at most one character after the buffer's `end_char` is merged
(text joined with no separator exactly when the sub-label repeats, else a
single space; confidence is the max), while a gap of two or more characters
flushes the buffer and starts a new one; and over a whole mergeable run the
buffer's confidence is the maximum of its constituent token confidences. -/
theorem detectStep_correct :
    (∀ st : DetectState, ∀ tok : NerToken,
      (normalise_label tok.entity_group = "NAME" ∨
        normalise_label tok.entity_group = "LOCATION") →
      overlapsAny st.occupied_spans tok.start tok.stop = true →
      detectStep st tok = st) ∧
    (∀ st : DetectState, ∀ cur tok, st.current_entity = some cur →
      (cur.entity_type = "NAME" ∨ cur.entity_type = "LOCATION") →
      normalise_label tok.entity_group = cur.entity_type →
      overlapsAny st.occupied_spans tok.start tok.stop = false →
      (tok.start ≤ cur.end_char + 1 →
        detectStep st tok =
          { st with current_entity := some (mergeBuffer cur tok) }) ∧
      (cur.end_char + 1 < tok.start →
        detectStep st tok =
          { pii_entities := st.pii_entities ++ [bufferToEntity cur],
            occupied_spans :=
              st.occupied_spans ++ [(cur.start_char, cur.end_char)],
            current_entity := some (newBuffer cur.entity_type tok) })) ∧
    (∀ toks : List NerToken, ∀ st : DetectState, ∀ cur,
      st.current_entity = some cur →
      (cur.entity_type = "NAME" ∨ cur.entity_type = "LOCATION") →
      MergeableRun cur.entity_type st.occupied_spans cur.end_char toks →
      ∃ cur', toks.foldl detectStep st =
          { st with current_entity := some cur' } ∧
        cur'.entity_type = cur.entity_type ∧
        cur'.start_char = cur.start_char ∧
        cur'.confidence = (toks.map NerToken.score).foldl max cur.confidence) := by
  have hrelArg : ∀ tok : NerToken, ∀ ty,
      normalise_label tok.entity_group = ty →
      (ty = "NAME" ∨ ty = "LOCATION") →
      ¬¬(normalise_label tok.entity_group = "NAME" ∨
        normalise_label tok.entity_group = "LOCATION") := by
    intro tok ty hn hty
    rcases hty with h | h <;> intro hc <;> exact hc (by rw [hn, h]; simp)
  have hdiscard : ∀ st : DetectState, ∀ tok : NerToken,
      (normalise_label tok.entity_group = "NAME" ∨
        normalise_label tok.entity_group = "LOCATION") →
      overlapsAny st.occupied_spans tok.start tok.stop = true →
      detectStep st tok = st := by
    intro st tok hrel hov
    simp only [detectStep]
    rw [if_neg (not_not_intro hrel), if_pos hov]
  have hmerge : ∀ st : DetectState, ∀ cur tok, st.current_entity = some cur →
      (cur.entity_type = "NAME" ∨ cur.entity_type = "LOCATION") →
      normalise_label tok.entity_group = cur.entity_type →
      overlapsAny st.occupied_spans tok.start tok.stop = false →
      tok.start ≤ cur.end_char + 1 →
      detectStep st tok =
        { st with current_entity := some (mergeBuffer cur tok) } := by
    intro st cur tok hst hty hn hov hadj
    simp only [detectStep, hst]
    rw [if_neg (hrelArg tok cur.entity_type hn hty), if_neg (by rw [hov]; simp)]
    rw [if_neg ?_]
    rintro (h | h)
    · exact h hn.symm
    · exact absurd hadj (not_le.2 h)
  have hflush : ∀ st : DetectState, ∀ cur tok, st.current_entity = some cur →
      (cur.entity_type = "NAME" ∨ cur.entity_type = "LOCATION") →
      normalise_label tok.entity_group = cur.entity_type →
      overlapsAny st.occupied_spans tok.start tok.stop = false →
      cur.end_char + 1 < tok.start →
      detectStep st tok =
        { pii_entities := st.pii_entities ++ [bufferToEntity cur],
          occupied_spans :=
            st.occupied_spans ++ [(cur.start_char, cur.end_char)],
          current_entity := some (newBuffer cur.entity_type tok) } := by
    intro st cur tok hst hty hn hov hgap
    simp only [detectStep, hst]
    rw [if_neg (hrelArg tok cur.entity_type hn hty), if_neg (by rw [hov]; simp),
      if_pos (Or.inr hgap), hn]
  refine ⟨hdiscard, fun st cur tok hst hty hn hov =>
    ⟨hmerge st cur tok hst hty hn hov, hflush st cur tok hst hty hn hov⟩, ?_⟩
  intro toks
  induction toks with
  | nil =>
    intro st cur hst _ _
    refine ⟨cur, ?_, rfl, rfl, rfl⟩
    obtain ⟨p, o, c⟩ := st
    simp only at hst
    rw [List.foldl_nil, hst]
  | cons tok toks ih =>
    intro st cur hst hty hrun
    obtain ⟨h1, h2, h3, h4⟩ := hrun
    have hstep := hmerge st cur tok hst hty h1 h2 h3
    rw [List.foldl_cons, hstep]
    obtain ⟨cur', hfold, hty', hstart', hconf'⟩ :=
      ih { st with current_entity := some (mergeBuffer cur tok) } _ rfl hty h4
    refine ⟨cur', hfold, hty', hstart', ?_⟩
    rw [hconf']
    rfl

/-- Witness state: no buffer, one occupied regex span `(0, 5)`. -/
def wSt : DetectState :=
  { pii_entities := [], occupied_spans := [(0, 5)], current_entity := none }

/-- Witness buffer: a NAME entity over `[10, 12)` with confidence 1. -/
def wCur : CurrentEntity :=
  { entity_type := "NAME", entity_group := "FIRSTNAME", text := ['J', 'o'],
    start_char := 10, end_char := 12, confidence := 1,
    replacement := ['[', 'N', 'A', 'M', 'E', ']'] }

/-- Witness state with the live buffer `wCur`. -/
def wStBuf : DetectState :=
  { pii_entities := [], occupied_spans := [(0, 5)],
    current_entity := some wCur }

/-- Token starting exactly one character after the buffer end (13 = 12 + 1),
different sub-label. -/
def wTokAdj : NerToken :=
  { entity_group := "LASTNAME", word := ['D', 'o', 'e'], start := 13,
    stop := 16, score := 2 }

/-- Token starting two characters after the buffer end (gap of 2). -/
def wTokGap : NerToken :=
  { entity_group := "LASTNAME", word := ['D'], start := 14, stop := 15,
    score := 2 }

/-- Token overlapping the occupied span `(0, 5)`. -/
def wTokOv : NerToken :=
  { entity_group := "FIRSTNAME", word := ['X'], start := 3, stop := 7,
    score := 1 }

/-- Witness for C6 at concrete inputs: an overlapping token is discarded; a
token starting one character after the buffer end merges (space join across
sub-labels, confidence max 1 2 = 2); a gap of two characters flushes; a
one-token mergeable run yields buffer confidence `max 1 2`. -/
theorem detectStep_correct_witness :
    (overlapsAny wSt.occupied_spans wTokOv.start wTokOv.stop = true ∧
      detectStep wSt wTokOv = wSt) ∧
    (wTokAdj.start ≤ wCur.end_char + 1 ∧
      detectStep wStBuf wTokAdj =
        { wStBuf with current_entity := some (mergeBuffer wCur wTokAdj) } ∧
      (mergeBuffer wCur wTokAdj).confidence = 2 ∧
      (mergeBuffer wCur wTokAdj).text = ['J', 'o', ' ', 'D', 'o', 'e']) ∧
    (wCur.end_char + 1 < wTokGap.start ∧
      detectStep wStBuf wTokGap =
        { pii_entities := wStBuf.pii_entities ++ [bufferToEntity wCur],
          occupied_spans :=
            wStBuf.occupied_spans ++ [(wCur.start_char, wCur.end_char)],
          current_entity := some (newBuffer wCur.entity_type wTokGap) }) ∧
    (∃ cur', [wTokAdj].foldl detectStep wStBuf =
        { wStBuf with current_entity := some cur' } ∧
      cur'.confidence = ([wTokAdj].map NerToken.score).foldl max wCur.confidence) := by
  have h := detectStep_correct
  have hrelOv : normalise_label wTokOv.entity_group = "NAME" ∨
      normalise_label wTokOv.entity_group = "LOCATION" := by
    left; decide
  have hnAdj : normalise_label wTokAdj.entity_group = wCur.entity_type := by
    decide
  have hnGap : normalise_label wTokGap.entity_group = wCur.entity_type := by
    decide
  have hrun : MergeableRun wCur.entity_type wStBuf.occupied_spans
      wCur.end_char [wTokAdj] := by
    refine ⟨hnAdj, by decide, by decide, trivial⟩
  obtain ⟨cur', hfold, _, _, hconf⟩ :=
    h.2.2 [wTokAdj] wStBuf wCur rfl (Or.inl rfl) hrun
  refine ⟨⟨by decide, h.1 wSt wTokOv hrelOv (by decide)⟩,
    ⟨by decide, (h.2.1 wStBuf wCur wTokAdj rfl (Or.inl rfl) hnAdj (by decide)).1
        (by decide), ?_, by decide⟩,
    ⟨by decide, (h.2.1 wStBuf wCur wTokGap rfl (Or.inl rfl) hnGap (by decide)).2
        (by decide)⟩,
    ⟨cur', hfold, hconf⟩⟩
  show max wCur.confidence wTokAdj.score = 2
  show max 1 2 = 2
  rw [max_eq_right]
  norm_num

/-! ### Deterministic regex detection (`PIIDetector._detect_with_regex`)

The Python `re` engine is an external capability: each compiled pattern is
embedded as a matcher function returning the `(start, end)` spans of its
matches over the text, in order. -/

/-- Source `_detect_with_regex(text)`: for each of EMAIL, PHONE, URL (in that
order), every match becomes a `PIIEntity` whose text is the matched span,
whose confidence is the float `1.0` the source assigns (comment
`# deterministic`), and whose replacement is the type-tagged placeholder
`"[" + entity_type + "]"`. -/
def detect_with_regex
    (email_matches phone_matches url_matches : List Char → List (Nat × Nat))
    (text : List Char) : List PIIEntity :=
  let mk := fun (entity_type : String) (p : Nat × Nat) =>
    { entity_type := entity_type,
      text := (text.drop p.1).take (p.2 - p.1),
      start_char := p.1, end_char := p.2,
      confidence := 1,
      replacement := '[' :: entity_type.data ++ [']'] : PIIEntity }
  (email_matches text).map (mk "EMAIL")
    ++ (phone_matches text).map (mk "PHONE")
    ++ (url_matches text).map (mk "URL")

/-- Counterexample to C3 as stated: on the spec's own scenario text, the
EMAIL entity produced by the regex detector has confidence `1.0`
(`confidence=1.0  # deterministic` in the source), not `100`, on the 0–100
scale declared by the `PIIEntity` model. -/
theorem detect_with_regex_confidence_not_100 :
    ∃ e, (detect_with_regex (fun _ => [(9, 19)]) (fun _ => []) (fun _ => [])
        "Contact: jane@x.com, +1 415 555 0100".data).head? = some e ∧
      e.confidence = 1 ∧ ¬e.confidence = 100 := by
  refine ⟨_, rfl, rfl, by norm_num⟩

/-- C3 (amended): every `PIIEntity` produced by the deterministic regex
detectors (EMAIL, PHONE, URL) has confidence exactly `1.0` — the maximal
value of the 0-to-1 probability scale the detector actually uses, not
`100` — and redaction replaces each such entity with its type-tagged
placeholder (`[EMAIL]`, `[PHONE]`, `[URL]`) leaving the surrounding text
untouched; concretely, the spec scenario text redacts to
`"Contact: [EMAIL], [PHONE]"`. -/
theorem detect_with_regex_correct :
    (∀ em ph ur text, ∀ e ∈ detect_with_regex em ph ur text,
      e.confidence = 1 ∧
      e.replacement = '[' :: e.entity_type.data ++ [']'] ∧
      (e.entity_type = "EMAIL" ∨ e.entity_type = "PHONE" ∨
        e.entity_type = "URL")) ∧
    apply_replacements "Contact: jane@x.com, +1 415 555 0100".data
        (detect_with_regex (fun _ => [(9, 19)]) (fun _ => [(21, 36)])
          (fun _ => []) "Contact: jane@x.com, +1 415 555 0100".data) =
      "Contact: [EMAIL], [PHONE]".data := by
  constructor
  · intro em ph ur text e he
    simp only [detect_with_regex, List.mem_append, List.mem_map] at he
    rcases he with (⟨p, -, hp⟩ | ⟨p, -, hp⟩) | ⟨p, -, hp⟩ <;>
      rw [← hp] <;> exact ⟨rfl, rfl, by simp⟩
  · decide

/-- Witness for the amended C3: the universally quantified part applied to
the concrete EMAIL match of the scenario text. -/
theorem detect_with_regex_correct_witness :
    ∃ e, (detect_with_regex (fun _ => [(9, 19)]) (fun _ => [])
        (fun _ => []) "Contact: jane@x.com".data).head? = some e ∧
      e.confidence = 1 ∧
      e.replacement = '[' :: e.entity_type.data ++ [']'] := by
  have h := (detect_with_regex_correct).1 (fun _ => [(9, 19)]) (fun _ => [])
    (fun _ => []) "Contact: jane@x.com".data
  refine ⟨_, rfl, ?_⟩
  have hm := h _ (by decide :
    (⟨"EMAIL", "jane@x.com".data, 9, 19, 1, '[' :: "EMAIL".data ++ [']']⟩ : PIIEntity) ∈
      detect_with_regex (fun _ => [(9, 19)]) (fun _ => []) (fun _ => [])
        "Contact: jane@x.com".data)
  exact ⟨hm.1, hm.2.1⟩

/-! ### Orchestrator (`orchestrator.py`, `models.py`)

The LLM-backed stages (document loading, parsing, matching, summary
generation) are external collaborators and are passed in as
`Except`-returning functions; `Fit`, `Resume`, `Job` and the opaque
conversational `Thread` are type parameters.  Timestamps are opaque `Nat`
values.  `print` calls and the `progress_callback` side channel are not
modelled. -/

/-- Source `SummaryGenerated` pydantic model. -/
structure SummaryGenerated where
  candidate_id : String
  job_id : String
  summary : String
deriving DecidableEq

/-- Source `CandidateDetail` pydantic model (all contact fields default blank). -/
structure CandidateDetail where
  id : String := ""
  name : String := ""
  email : String := ""
  phone : String := ""
  url : List String := []
  location : String := ""
deriving DecidableEq

/-- The Python value stored in the `candidate_details` local of `analyse`:
either a proper `CandidateDetail` instance, or — on the redaction recovery
path, where the source executes `candidate_details=CandidateDetail` with no
parentheses — the bare class object itself. -/
inductive CdValue where
  | inst (cd : CandidateDetail)
  | classObject
deriving DecidableEq

/-- Pydantic validation of the `candidate_details` field when
`AnalysisReport(...)` is constructed: an instance passes, the bare class
object is neither an instance nor a dict and raises `ValidationError`. -/
def validateCandidateDetails : CdValue → Except String CandidateDetail
  | .inst cd => .ok cd
  | .classObject =>
    .error "ValidationError: candidate_details is the CandidateDetail class, not an instance"

/-- Source `RedacteddResume` pydantic model (timestamp omitted). -/
structure RedacteddResume where
  id : String
  original_text : String
  redacted_text : String
  pii_entities : List PIIEntity
deriving DecidableEq

/-- Source `AnalysisReport` pydantic model. -/
structure AnalysisReport (Fit Resume Job : Type) where
  candidate_details : CandidateDetail
  job_id : String
  summary : SummaryGenerated
  fit_analysis : Fit
  resume : Resume
  job : Job
  generated_at : Nat

/-- The orchestrator's only mutable field: `self.message_thread`
(initialised to `None` in `__init__`). -/
structure OrchestratorState (Thread : Type) where
  message_thread : Option Thread

/-- Source `MatchingOrchestrator.analyse` (IDs assumed already generated).

Stage failures: load, parse, match and summary failures abort with a
stage-context message; a redaction failure is recovered by substituting an
identity `RedacteddResume` (no entities removed) — but the source then
assigns the bare class `CandidateDetail` (missing parentheses) to
`candidate_details`, which pydantic rejects when the report is finally
assembled. -/
def analyse {Fit Resume Job Thread : Type}
    (load_document : String → Except String String)
    (process_resume : String → String →
      Except String (RedacteddResume × CandidateDetail))
    (parse_resume : String → String → Except String Resume)
    (parse_job : String → String → Except String Job)
    (match_candidate_to_job : Resume → Job → Except String Fit)
    (generate_summary : Fit → Resume → Job → Option String → Option Thread →
      Except String (SummaryGenerated × Thread))
    (resume_source job_source candidate_id job_id : String) (now : Nat)
    (st : OrchestratorState Thread) :
    Except String (AnalysisReport Fit Resume Job × OrchestratorState Thread) :=
  match load_document resume_source with
  | .error e => .error ("Failed to load resume from " ++ resume_source ++ ": " ++ e)
  | .ok resume_text =>
  match load_document job_source with
  | .error e => .error ("Failed to load job from " ++ job_source ++ ": " ++ e)
  | .ok job_text =>
  let redaction := process_resume resume_text candidate_id
  let processed_resume : RedacteddResume :=
    match redaction with
    | .ok (r, _) => r
    | .error _ =>
      { id := candidate_id, original_text := resume_text,
        redacted_text := resume_text, pii_entities := [] }
  let candidate_details : CdValue :=
    match redaction with
    | .ok (_, cd) => .inst cd
    | .error _ => .classObject
  match parse_resume processed_resume.redacted_text candidate_id with
  | .error e => .error ("Resume parsing failed: " ++ e)
  | .ok parsed_resume =>
  match parse_job job_text job_id with
  | .error e => .error ("Job parsing failed: " ++ e)
  | .ok parsed_job =>
  match match_candidate_to_job parsed_resume parsed_job with
  | .error e => .error ("Matching failed: " ++ e)
  | .ok fit_analysis =>
  match generate_summary fit_analysis parsed_resume parsed_job none
      st.message_thread with
  | .error e => .error ("Summary generation failed: " ++ e)
  | .ok (summary, message_thread) =>
  match validateCandidateDetails candidate_details with
  | .error e => .error e
  | .ok cd =>
    .ok ({ candidate_details := cd, job_id := job_id, summary := summary,
           fit_analysis := fit_analysis, resume := parsed_resume,
           job := parsed_job, generated_at := now },
         { message_thread := some message_thread })

/-- Source `MatchingOrchestrator.regenerate_summary`: regenerates the summary from
the stored conversational thread, replaces only the report's `summary`
field (`report.summary = summary`), stores the new thread
(`self.message_thread = message_thread`) and returns the new summary. -/
def regenerate_summary {Fit Resume Job Thread : Type}
    (generate_summary : Fit → Resume → Job → Option String → Option Thread →
      Except String (SummaryGenerated × Thread))
    (st : OrchestratorState Thread)
    (report : AnalysisReport Fit Resume Job)
    (recruiter_feedback : String) :
    Except String
      (AnalysisReport Fit Resume Job × OrchestratorState Thread ×
        SummaryGenerated) :=
  match generate_summary report.fit_analysis report.resume report.job
      (some recruiter_feedback) st.message_thread with
  | .error e => .error ("Summary generation failed: " ++ e)
  | .ok (summary, message_thread) =>
    .ok ({ report with summary := summary },
         { message_thread := some message_thread }, summary)

/-- C2 (code bug): when the redaction stage raises and every other stage
succeeds, `analyse` does **not** reach completion: the recovery branch
assigns the bare `CandidateDetail` class (missing parentheses) to
`candidate_details`, so the final `AnalysisReport(...)` construction raises
a pydantic `ValidationError` and the pipeline aborts; with redaction
succeeding, the identical run completes.  The identity-redaction fallback
itself (original text kept, `pii_entities = []`) is as specified. -/
theorem analyse_redaction_failure_bug :
    @analyse Unit Unit Unit Unit
      (fun _ => .ok "text") (fun _ _ => .error "redactor raised")
      (fun _ _ => .ok ()) (fun _ _ => .ok ()) (fun _ _ => .ok ())
      (fun _ _ _ _ _ => .ok (⟨"c", "j", "s"⟩, ()))
      "r" "j" "cand" "job" 0 ⟨none⟩ =
      .error "ValidationError: candidate_details is the CandidateDetail class, not an instance" ∧
    @analyse Unit Unit Unit Unit
      (fun _ => .ok "text")
      (fun _ _ =>
        .ok ({ id := "cand", original_text := "text", redacted_text := "text",
               pii_entities := [] }, { id := "cand" }))
      (fun _ _ => .ok ()) (fun _ _ => .ok ()) (fun _ _ => .ok ())
      (fun _ _ _ _ _ => .ok (⟨"c", "j", "s"⟩, ()))
      "r" "j" "cand" "job" 0 ⟨none⟩ =
      .ok ({ candidate_details := { id := "cand" }, job_id := "job",
             summary := ⟨"c", "j", "s"⟩, fit_analysis := (), resume := (),
             job := (), generated_at := 0 },
           { message_thread := some () }) :=
  ⟨rfl, rfl⟩

/-- C9: `regenerate_summary` mutates only the `summary` field of the given
report — `candidate_details`, `job_id`, `fit_analysis`, `resume`, `job` and
`generated_at` are unchanged — and the orchestrator's stored message thread
is replaced with the new history returned by the summarisation call. -/
theorem regenerate_summary_frame {Fit Resume Job Thread : Type}
    (gen : Fit → Resume → Job → Option String → Option Thread →
      Except String (SummaryGenerated × Thread))
    (st : OrchestratorState Thread)
    (report : AnalysisReport Fit Resume Job)
    (feedback : String) (s : SummaryGenerated) (th : Thread)
    (h : gen report.fit_analysis report.resume report.job (some feedback)
      st.message_thread = .ok (s, th)) :
    regenerate_summary gen st report feedback =
      .ok ({ report with summary := s }, { message_thread := some th }, s) ∧
    ∀ r' st' s', regenerate_summary gen st report feedback =
        .ok (r', st', s') →
      r'.summary = s' ∧
      r'.candidate_details = report.candidate_details ∧
      r'.job_id = report.job_id ∧
      r'.fit_analysis = report.fit_analysis ∧
      r'.resume = report.resume ∧
      r'.job = report.job ∧
      r'.generated_at = report.generated_at ∧
      st'.message_thread = some th := by
  have heq : regenerate_summary gen st report feedback =
      .ok ({ report with summary := s }, { message_thread := some th }, s) := by
    rw [regenerate_summary, h]
  refine ⟨heq, ?_⟩
  intro r' st' s' h'
  rw [heq] at h'
  simp only [Except.ok.injEq, Prod.mk.injEq] at h'
  obtain ⟨hr, hst, hs⟩ := h'
  subst hr hst hs
  exact ⟨rfl, rfl, rfl, rfl, rfl, rfl, rfl, rfl⟩

/-- Witness for C9 at concrete inputs. -/
theorem regenerate_summary_frame_witness :
    @regenerate_summary Unit Unit Unit Unit
        (fun _ _ _ _ _ => .ok (⟨"c", "j", "new"⟩, ()))
        { message_thread := none }
        { candidate_details := { name := "A" }, job_id := "job",
          summary := ⟨"c", "j", "old"⟩, fit_analysis := (), resume := (),
          job := (), generated_at := 7 }
        "feedback" =
      .ok ({ candidate_details := { name := "A" }, job_id := "job",
             summary := ⟨"c", "j", "new"⟩, fit_analysis := (), resume := (),
             job := (), generated_at := 7 },
           { message_thread := some () }, ⟨"c", "j", "new"⟩) := by
  have h := regenerate_summary_frame
    (fun _ _ _ _ _ => .ok (⟨"c", "j", "new"⟩, ()))
    { message_thread := none }
    { candidate_details := { name := "A" }, job_id := "job",
      summary := ⟨"c", "j", "old"⟩, fit_analysis := (), resume := (),
      job := (), generated_at := 7 }
    "feedback" ⟨"c", "j", "new"⟩ () rfl
  exact h.1

end JobFit
